import Mathlib

/-!
Shallow embedding of `src/qdrant.py` (crewai-qdrant): a CrewAI tool adapter
performing add / update / list / delete / search against a Qdrant collection,
with an embedding provider turning text into vectors.

The external collaborators (Qdrant client, embedding provider) are modelled as
an environment of possibly-failing stateful operations; every call the tool
issues is recorded in a trace, so that claims about which calls are made (and
with which arguments) can be stated and proved.  Python truthiness on optional
string fields is modelled by `falsy` (absent or empty string).
-/

namespace CrewaiQdrant

/-- Error messages carried by raised exceptions (Python `str(e)`). -/
abbrev Err := String

/-- Embedding vectors; component values are irrelevant to the tool logic, so an
abstract numeric list stands in for `List[float]`. -/
abbrev Vec := List Int

/-- Metadata mappings (`Dict[str, Any]`); values are opaque pass-through data,
modelled as strings. -/
abbrev Metadata := List (String × String)

/-- Distance metric passed to `create_collection` (`Distance.COSINE`). -/
inductive Distance where
  | cosine
deriving Repr, DecidableEq

/-- A stored point payload: `{"content": content, "metadata": metadata}`.
`content = none` models the `content` key being absent from the payload. -/
structure Payload where
  content : Option String
  metadata : Metadata
deriving Repr, DecidableEq

/-- A point as sent to / returned by the store (`PointStruct`). -/
structure Point where
  id : String
  vector : Vec
  payload : Payload
deriving Repr, DecidableEq

/-- A scored search hit returned by `client.search`. -/
structure ScoredPoint where
  id : String
  payload : Payload
  score : Int
deriving Repr, DecidableEq

/-- The only filter shape the tool ever builds:
`Filter(must=[FieldCondition(key, match=MatchValue(value))])`. -/
structure SFilter where
  key : String
  value : String
deriving Repr, DecidableEq

/-- Calls the tool can issue to its external collaborators. -/
inductive Call where
  | collection_exists (name : String)
  | create_collection (name : String) (size : Nat) (dist : Distance)
  | upsert (coll : String) (points : List Point)
  | scroll (coll : String) (limit : Int)
  | delete (coll : String) (ids : List String)
  | search (coll : String) (vector : Vec) (limit : Int) (filter : Option SFilter)
  | embed (text : Option String)
deriving Repr, DecidableEq

/-- Environment of external collaborators: each store operation is a stateful
function over an abstract store state `σ` that may raise (return `.error`).
`embed_fn` models `_get_embedding` (custom function or OpenAI call), and
`uuid4` the identifier `uuid.uuid4()` yields during the call. -/
structure Env (σ : Type) where
  collection_exists : String → σ → Except Err (Bool × σ)
  create_collection : String → Nat → Distance → σ → Except Err σ
  upsert : String → List Point → σ → Except Err σ
  scroll : String → Int → σ → Except Err (List Point × σ)
  delete : String → List String → σ → Except Err σ
  search : String → Vec → Int → Option SFilter → σ → Except Err (List ScoredPoint × σ)
  embed_fn : Option String → Except Err Vec
  uuid4 : String

/-- Tool computations: state + accumulated call trace, with raised exceptions
as `Except.error`.  The trace records calls already issued, also when the last
one raised. -/
def M (σ α : Type) := σ → List Call → Except Err α × σ × List Call

/-- Return a value, touching neither state nor trace. -/
def M.pure {σ α : Type} (a : α) : M σ α := fun s tr => (.ok a, s, tr)

/-- Sequence two computations; a raised exception short-circuits. -/
def M.bind {σ α β : Type} (m : M σ α) (f : α → M σ β) : M σ β := fun s tr =>
  match m s tr with
  | (.ok a, s2, tr2) => f a s2 tr2
  | (.error e, s2, tr2) => (.error e, s2, tr2)

/-- Raise an exception. -/
def M.throw {σ α : Type} (e : Err) : M σ α := fun s tr => (.error e, s, tr)

/-- Issue one external call `c` whose behavior is the stateful possibly-failing
function `f`; the call is recorded in the trace whether or not it raises. -/
def M.callOp {σ α : Type} (c : Call) (f : σ → Except Err (α × σ)) : M σ α :=
  fun s tr =>
    match f s with
    | .error e => (.error e, s, tr ++ [c])
    | .ok (a, s2) => (.ok a, s2, tr ++ [c])

/-- Issue `client.collection_exists(name)`. -/
def M.collectionExists {σ : Type} (env : Env σ) (name : String) : M σ Bool :=
  M.callOp (.collection_exists name) (env.collection_exists name)

/-- Issue `client.create_collection(name, VectorParams(size, distance))`. -/
def M.createCollection {σ : Type} (env : Env σ) (name : String) (size : Nat)
    (dist : Distance) : M σ Unit :=
  M.callOp (.create_collection name size dist)
    (fun s => (env.create_collection name size dist s).map (fun s2 => ((), s2)))

/-- Issue `client.upsert(collection_name, points)`. -/
def M.upsertPoints {σ : Type} (env : Env σ) (coll : String) (pts : List Point) :
    M σ Unit :=
  M.callOp (.upsert coll pts)
    (fun s => (env.upsert coll pts s).map (fun s2 => ((), s2)))

/-- Issue `client.scroll(collection_name, limit)` (the tool keeps component 0,
the point list). -/
def M.scrollPoints {σ : Type} (env : Env σ) (coll : String) (limit : Int) :
    M σ (List Point) :=
  M.callOp (.scroll coll limit) (env.scroll coll limit)

/-- Issue `client.delete(collection_name, points_selector=ids)`. -/
def M.deletePoints {σ : Type} (env : Env σ) (coll : String) (ids : List String) :
    M σ Unit :=
  M.callOp (.delete coll ids)
    (fun s => (env.delete coll ids s).map (fun s2 => ((), s2)))

/-- Issue `client.search(collection_name, query_vector, limit, query_filter)`. -/
def M.searchPoints {σ : Type} (env : Env σ) (coll : String) (v : Vec)
    (limit : Int) (f : Option SFilter) : M σ (List ScoredPoint) :=
  M.callOp (.search coll v limit f) (env.search coll v limit f)

/-- Issue `_get_embedding(text)` (custom embedding function or OpenAI API). -/
def get_embedding {σ : Type} (env : Env σ) (text : Option String) : M σ Vec :=
  M.callOp (.embed text)
    (fun s => (env.embed_fn text).map (fun v => (v, s)))

/-- A tool request: the fields of `QdrantInput` / the parameters of `_run`.
Optional string fields are `none` when absent. -/
structure Request where
  action : String
  collection_name : String
  content : Option String
  metadata : Option Metadata
  point_id : Option String
  query : Option String
  filter_by : Option String
  filter_value : Option String
  limit : Int
deriving Repr, DecidableEq

/-- Python truthiness test `not x` on an optional string: true when the field
is absent (`None`) or the empty string. -/
def falsy : Option String → Bool
  | none => true
  | some s => s == ""

/-- Negated form: the field is present and non-empty (Python `if x:`). -/
def truthy (o : Option String) : Bool := !(falsy o)

/-- The `root_validator` `QdrantInput.validate_action_requirements`: raises
`ValueError` (here `.error`) when a field required by the action is missing. -/
def validate_action_requirements (r : Request) : Except Err Request :=
  if (r.action == "add" || r.action == "update") && falsy r.content then
    .error ("Content is required for " ++ r.action ++ " action")
  else if (r.action == "update" || r.action == "delete") && falsy r.point_id then
    .error ("Point ID is required for " ++ r.action ++ " action")
  else if r.action == "search" && falsy r.query then
    .error ("Query is required for search action")
  else
    .ok r

/-- Render a metadata mapping the way Python string-formats a dict (opaque to
all claims; only equality of renderings matters). -/
def reprMetadata (m : Metadata) : String :=
  "\x7b" ++ String.intercalate ", " (m.map (fun kv => kv.1 ++ ": " ++ kv.2)) ++ "\x7d"

/-- `QdrantTool._add_content`. -/
def add_content {σ : Type} (env : Env σ) (collection_name : String)
    (content : Option String) (metadata : Option Metadata) : M σ String :=
  let point_id := env.uuid4
  M.bind (get_embedding env content) (fun v =>
    let point : Point := ⟨point_id, v, ⟨content, metadata.getD []⟩⟩
    M.bind (M.upsertPoints env collection_name [point]) (fun _ =>
      M.pure ("Content added successfully with ID: " ++ point_id)))

/-- `QdrantTool._update_content`. -/
def update_content {σ : Type} (env : Env σ) (collection_name : String)
    (point_id : Option String) (content : Option String)
    (metadata : Option Metadata) : M σ String :=
  M.bind (get_embedding env content) (fun v =>
    let point : Point := ⟨point_id.getD "", v, ⟨content, metadata.getD []⟩⟩
    M.bind (M.upsertPoints env collection_name [point]) (fun _ =>
      M.pure ("Content updated successfully for ID: " ++ point_id.getD "")))

/-- `QdrantTool._list_content`. -/
def list_content {σ : Type} (env : Env σ) (collection_name : String)
    (limit : Int) : M σ String :=
  M.bind (M.scrollPoints env collection_name limit) (fun points =>
    if points.isEmpty then
      M.pure "No content found in collection."
    else
      M.pure (String.intercalate "\n" (points.flatMap (fun p =>
        ["ID: " ++ p.id,
         "Content: " ++ p.payload.content.getD "N/A",
         "Metadata: " ++ reprMetadata p.payload.metadata,
         "---"]))))

/-- `QdrantTool._delete_content`. -/
def delete_content {σ : Type} (env : Env σ) (collection_name : String)
    (point_id : Option String) : M σ String :=
  M.bind (M.deletePoints env collection_name [point_id.getD ""]) (fun _ =>
    M.pure ("Content deleted successfully for ID: " ++ point_id.getD ""))

/-- The filter-building block of `_search_content`: an equality filter on
`"metadata.<filter_by>"` when both `filter_by` and `filter_value` are truthy,
otherwise no filter. -/
def build_filter (filter_by filter_value : Option String) : Option SFilter :=
  if truthy filter_by && truthy filter_value then
    some ⟨"metadata." ++ filter_by.getD "", filter_value.getD ""⟩
  else
    none

/-- `QdrantTool._search_content`: builds the all-or-nothing metadata equality
filter, embeds the query, searches, and formats the hits. -/
def search_content {σ : Type} (env : Env σ) (collection_name : String)
    (query : Option String) (limit : Int)
    (filter_by filter_value : Option String) : M σ String :=
  let search_filter : Option SFilter := build_filter filter_by filter_value
  M.bind (get_embedding env query) (fun v =>
    M.bind (M.searchPoints env collection_name v limit search_filter)
      (fun search_result =>
        if search_result.isEmpty then
          M.pure "No matching content found."
        else
          M.pure (String.intercalate "\n" (search_result.flatMap (fun p =>
            ["ID: " ++ p.id,
             "Content: " ++ p.payload.content.getD "N/A",
             "Metadata: " ++ reprMetadata p.payload.metadata,
             "Score: " ++ toString p.score,
             "---"])))))

/-- The routing part of `QdrantTool._run`: the if/elif chain on `action`,
falling through to the unknown-action message. -/
def dispatch {σ : Type} (env : Env σ) (r : Request) : M σ String :=
  if r.action == "add" then
    add_content env r.collection_name r.content r.metadata
  else if r.action == "update" then
    update_content env r.collection_name r.point_id r.content r.metadata
  else if r.action == "list" then
    list_content env r.collection_name r.limit
  else if r.action == "delete" then
    delete_content env r.collection_name r.point_id
  else if r.action == "search" then
    search_content env r.collection_name r.query r.limit r.filter_by
      r.filter_value
  else
    M.pure ("Unknown action \x27" ++ r.action ++
      "\x27. Valid actions are: add, update, list, delete, search.")

/-- The body of `QdrantTool._run` inside the `try`: ensure the collection
exists (creating it with size 1536 and cosine distance if absent), then
dispatch on the action. -/
def run_op {σ : Type} (env : Env σ) (r : Request) : M σ String :=
  M.bind (M.collectionExists env r.collection_name) (fun ex =>
    M.bind (if ex then M.pure () else
      M.createCollection env r.collection_name 1536 Distance.cosine) (fun _ =>
      dispatch env r))

/-- `QdrantTool._run`: the `try` block around `run_op`; any raised exception
is converted to the string `"Error: <message>"`. -/
def run {σ : Type} (env : Env σ) (r : Request) (s : σ) :
    String × σ × List Call :=
  match run_op env r s [] with
  | (.ok res, s2, tr) => (res, s2, tr)
  | (.error e, s2, tr) => ("Error: " ++ e, s2, tr)

/-- The public tool boundary: pydantic runs `validate_action_requirements`
before `_run` is dispatched.  Modelled from the spec: per the spec every call
path returns a string, so a validation failure surfaces as the same
`"Error: <message>"` text, issued before any external call is made. -/
def execute {σ : Type} (env : Env σ) (r : Request) (s : σ) :
    String × σ × List Call :=
  match validate_action_requirements r with
  | .error e => ("Error: " ++ e, s, [])
  | .ok r2 => run env r2 s

/-! ### A modelled Qdrant store

The Qdrant service itself is an external collaborator; the spec describes the
semantics the tool inherits from it (upsert replaces a point with the same id
or creates it, delete is idempotent).  The following reference store realises
those semantics so that state-dependent claims can be settled. -/

/-- A store snapshot: each collection name mapped to its points. -/
abbrev Store := List (String × List Point)

/-- Look up a collection by name. -/
def storeGet (w : Store) (name : String) : Option (List Point) :=
  (w.find? (fun c => c.1 == name)).map (fun c => c.2)

/-- Replace the contents of an existing collection. -/
def storeSet (w : Store) (name : String) (ps : List Point) : Store :=
  w.map (fun c => if c.1 == name then (name, ps) else c)

/-- Modelled from the spec: Qdrant upsert semantics — every point whose id
matches an incoming point is replaced by it; ids not present are created. -/
def upsertModel (pts : List Point) (ps : List Point) : List Point :=
  ps.filter (fun p => pts.all (fun q => q.id != p.id)) ++ pts

/-- Modelled from the spec: a search filter matches a point when the stored
metadata mapping has the filtered key (the part of `key` after `"metadata."`)
with exactly the filtered value. -/
def matchesFilter (p : Point) (f : Option SFilter) : Bool :=
  match f with
  | none => true
  | some f => p.payload.metadata.any
      (fun kv => ("metadata." ++ kv.1) == f.key && kv.2 == f.value)

/-- Look up a point by id inside one collection of a store. -/
def storeGetPoint (w : Store) (name pid : String) : Option Point :=
  (storeGet w name).bind (fun ps => ps.find? (fun p => p.id == pid))

/-- Modelled from the spec: the Qdrant client over a `Store` snapshot —
create adds an empty collection, upsert replaces-or-creates by id, delete
removes the ids and succeeds whether or not they were present, scroll returns
up to `limit` points, search returns filter-matching points.  `emb` is the
embedding provider and `u` the identifier `uuid4` yields. -/
def qdrantEnv (emb : Option String → Except Err Vec) (u : String) : Env Store :=
  ⟨fun name w => .ok ((storeGet w name).isSome, w),
   fun name _ _ w => .ok (w ++ [(name, [])]),
   fun name pts w =>
     match storeGet w name with
     | none => .error "Collection not found"
     | some ps => .ok (storeSet w name (upsertModel pts ps)),
   fun name limit w =>
     match storeGet w name with
     | none => .error "Collection not found"
     | some ps => .ok (ps.take limit.toNat, w),
   fun name ids w =>
     match storeGet w name with
     | none => .error "Collection not found"
     | some ps => .ok (storeSet w name
         (ps.filter (fun p => !(ids.contains p.id)))),
   fun name _ limit f w =>
     match storeGet w name with
     | none => .error "Collection not found"
     | some ps => .ok (((ps.filter (fun p => matchesFilter p f)).take
         limit.toNat).map (fun p => ⟨p.id, p.payload, 0⟩), w),
   emb,
   u⟩

/-! ### Concrete witnesses data -/

/-- A trivial-state environment in which every external call succeeds and the
named collection already exists. -/
def okEnv : Env Unit :=
  ⟨fun _ s => .ok (true, s),
   fun _ _ _ s => .ok s,
   fun _ _ s => .ok s,
   fun _ _ s => .ok ([], s),
   fun _ _ s => .ok s,
   fun _ _ _ _ s => .ok ([], s),
   fun _ => .ok [7],
   "uid-0001"⟩

/-- Like `okEnv`, but the named collection does not exist yet. -/
def okEnvAbsent : Env Unit :=
  ⟨fun _ s => .ok (false, s),
   fun _ _ _ s => .ok s,
   fun _ _ s => .ok s,
   fun _ _ s => .ok ([], s),
   fun _ _ s => .ok s,
   fun _ _ _ _ s => .ok ([], s),
   fun _ => .ok [7],
   "uid-0001"⟩

/-- A concrete list request. -/
def reqList : Request := ⟨"list", "docs", none, none, none, none, none, none, 10⟩

/-- A concrete add request missing its content. -/
def reqAddNoContent : Request :=
  ⟨"add", "docs", none, none, none, none, none, none, 10⟩

/-- A concrete search request supplying only `filter_by`. -/
def reqSearchHalfFilter : Request :=
  ⟨"search", "docs", none, none, none, some "q", some "tag", none, 5⟩

/-- A concrete request with an unrecognized action. -/
def reqFrobnicate : Request :=
  ⟨"frobnicate", "docs", none, none, none, none, none, none, 10⟩

/-- A concrete delete request. -/
def reqDelete : Request :=
  ⟨"delete", "docs", none, none, some "p1", none, none, none, 10⟩

/-- A concrete add request. -/
def reqAdd : Request :=
  ⟨"add", "docs", some "hello", some [("tag", "x")], none, none, none, none, 10⟩

/-- A concrete update request. -/
def reqUpdate : Request :=
  ⟨"update", "docs", some "new content", none, some "p1", none, none, none, 10⟩

/-- A concrete search request supplying both filter fields. -/
def reqSearchBoth : Request :=
  ⟨"search", "docs", none, none, none, some "q", some "tag", some "x", 5⟩

/-- The same request with the filter pair cleared. -/
def noFilters (r : Request) : Request :=
  ⟨r.action, r.collection_name, r.content, r.metadata, r.point_id, r.query,
   none, none, r.limit⟩

/-- A concrete always-succeeding embedding provider. -/
def embOk : Option String → Except Err Vec := fun _ => .ok [1]

/-- A delete request for a given collection and point id. -/
def deleteReq (cn pid : String) : Request :=
  ⟨"delete", cn, none, none, some pid, none, none, none, 10⟩

/-- Like `okEnv`, but scrolling returns one stored point. -/
def okEnvWithPoint : Env Unit :=
  ⟨fun _ s => .ok (true, s),
   fun _ _ _ s => .ok s,
   fun _ _ s => .ok s,
   fun _ _ s => .ok ([⟨"p1", [1], ⟨some "hello", [("tag", "x")]⟩⟩], s),
   fun _ _ s => .ok s,
   fun _ _ _ _ s => .ok ([], s),
   fun _ => .ok [7],
   "uid-0001"⟩

/-! ### Helper lemmas -/

/-- Validation passes only by returning the request unchanged. -/
theorem validate_ok_eq {r r2 : Request}
    (h : validate_action_requirements r = .ok r2) : r2 = r := by
  unfold validate_action_requirements at h
  split at h
  · exact Except.noConfusion h
  · split at h
    · exact Except.noConfusion h
    · split at h
      · exact Except.noConfusion h
      · exact (Except.ok.inj h).symm

/-- The add handler appends only embedding and upsert calls to the trace. -/
theorem add_content_trace {σ : Type} (env : Env σ) (cn : String)
    (ct : Option String) (md : Option Metadata) (s : σ) (tr : List Call) :
    ∃ Δ, (add_content env cn ct md s tr).2.2 = tr ++ Δ ∧
      ∀ c ∈ Δ, (∃ t, c = Call.embed t) ∨ ∃ n p, c = Call.upsert n p := by
  simp only [add_content, get_embedding, M.bind, M.callOp, M.upsertPoints,
    M.pure]
  cases hemb : env.embed_fn ct with
  | error e =>
    refine ⟨[.embed ct], by simp [Except.map], ?_⟩
    intro c hc
    simp only [List.mem_singleton] at hc
    exact Or.inl ⟨ct, hc⟩
  | ok v =>
    cases hup : env.upsert cn [⟨env.uuid4, v, ⟨ct, md.getD []⟩⟩] s with
    | error e =>
      refine ⟨[.embed ct, .upsert cn [⟨env.uuid4, v, ⟨ct, md.getD []⟩⟩]],
        by simp [Except.map, hup], ?_⟩
      intro c hc
      simp only [List.mem_cons, List.mem_singleton, List.not_mem_nil,
        or_false] at hc
      rcases hc with rfl | rfl
      · exact Or.inl ⟨ct, rfl⟩
      · exact Or.inr ⟨cn, _, rfl⟩
    | ok s2 =>
      refine ⟨[.embed ct, .upsert cn [⟨env.uuid4, v, ⟨ct, md.getD []⟩⟩]],
        by simp [Except.map, hup], ?_⟩
      intro c hc
      simp only [List.mem_cons, List.mem_singleton, List.not_mem_nil,
        or_false] at hc
      rcases hc with rfl | rfl
      · exact Or.inl ⟨ct, rfl⟩
      · exact Or.inr ⟨cn, _, rfl⟩

/-- The update handler appends only embedding and upsert calls to the trace. -/
theorem update_content_trace {σ : Type} (env : Env σ) (cn : String)
    (pid ct : Option String) (md : Option Metadata) (s : σ) (tr : List Call) :
    ∃ Δ, (update_content env cn pid ct md s tr).2.2 = tr ++ Δ ∧
      ∀ c ∈ Δ, (∃ t, c = Call.embed t) ∨ ∃ n p, c = Call.upsert n p := by
  simp only [update_content, get_embedding, M.bind, M.callOp, M.upsertPoints,
    M.pure]
  cases hemb : env.embed_fn ct with
  | error e =>
    refine ⟨[.embed ct], by simp [Except.map], ?_⟩
    intro c hc
    simp only [List.mem_singleton] at hc
    exact Or.inl ⟨ct, hc⟩
  | ok v =>
    cases hup : env.upsert cn [⟨pid.getD "", v, ⟨ct, md.getD []⟩⟩] s with
    | error e =>
      refine ⟨[.embed ct, .upsert cn [⟨pid.getD "", v, ⟨ct, md.getD []⟩⟩]],
        by simp [Except.map, hup], ?_⟩
      intro c hc
      simp only [List.mem_cons, List.mem_singleton, List.not_mem_nil,
        or_false] at hc
      rcases hc with rfl | rfl
      · exact Or.inl ⟨ct, rfl⟩
      · exact Or.inr ⟨cn, _, rfl⟩
    | ok s2 =>
      refine ⟨[.embed ct, .upsert cn [⟨pid.getD "", v, ⟨ct, md.getD []⟩⟩]],
        by simp [Except.map, hup], ?_⟩
      intro c hc
      simp only [List.mem_cons, List.mem_singleton, List.not_mem_nil,
        or_false] at hc
      rcases hc with rfl | rfl
      · exact Or.inl ⟨ct, rfl⟩
      · exact Or.inr ⟨cn, _, rfl⟩

/-- The list handler appends exactly one scroll call to the trace. -/
theorem list_content_trace {σ : Type} (env : Env σ) (cn : String) (lim : Int)
    (s : σ) (tr : List Call) :
    (list_content env cn lim s tr).2.2 = tr ++ [.scroll cn lim] := by
  simp only [list_content, M.bind, M.scrollPoints, M.callOp, M.pure]
  cases hs : env.scroll cn lim s with
  | error e => simp
  | ok ps =>
    obtain ⟨pts, s2⟩ := ps
    cases hp : pts.isEmpty <;> simp [hp, M.pure]

/-- The delete handler appends exactly one delete call to the trace. -/
theorem delete_content_trace {σ : Type} (env : Env σ) (cn : String)
    (pid : Option String) (s : σ) (tr : List Call) :
    (delete_content env cn pid s tr).2.2 = tr ++ [.delete cn [pid.getD ""]] := by
  simp only [delete_content, M.bind, M.deletePoints, M.callOp, M.pure]
  cases hd : env.delete cn [pid.getD ""] s <;> simp [Except.map]

/-- The search handler appends only an embedding call and a search call whose
filter is the all-or-nothing metadata filter. -/
theorem search_content_trace {σ : Type} (env : Env σ) (cn : String)
    (q : Option String) (lim : Int) (fb fv : Option String) (s : σ)
    (tr : List Call) :
    ∃ Δ, (search_content env cn q lim fb fv s tr).2.2 = tr ++ Δ ∧
      ∀ c ∈ Δ, (∃ t, c = Call.embed t) ∨
        ∃ v, c = Call.search cn v lim (build_filter fb fv) := by
  simp only [search_content, get_embedding, M.bind, M.callOp, M.searchPoints,
    M.pure]
  cases hemb : env.embed_fn q with
  | error e =>
    refine ⟨[.embed q], by simp [Except.map], ?_⟩
    intro c hc
    simp only [List.mem_singleton] at hc
    exact Or.inl ⟨q, hc⟩
  | ok v =>
    cases hsr : env.search cn v lim (build_filter fb fv) s with
    | error e =>
      refine ⟨[.embed q, .search cn v lim (build_filter fb fv)],
        by simp [Except.map, hsr], ?_⟩
      intro c hc
      simp only [List.mem_cons, List.mem_singleton, List.not_mem_nil,
        or_false] at hc
      rcases hc with rfl | rfl
      · exact Or.inl ⟨q, rfl⟩
      · exact Or.inr ⟨v, rfl⟩
    | ok rs =>
      obtain ⟨hits, s2⟩ := rs
      refine ⟨[.embed q, .search cn v lim (build_filter fb fv)], ?_, ?_⟩
      · cases hh : hits.isEmpty <;> simp [Except.map, hsr, hh, M.pure]
      · intro c hc
        simp only [List.mem_cons, List.mem_singleton, List.not_mem_nil,
          or_false] at hc
        rcases hc with rfl | rfl
        · exact Or.inl ⟨q, rfl⟩
        · exact Or.inr ⟨v, rfl⟩

/-- No handler (and not the unknown-action fallthrough) ever issues a
collection-creation call. -/
theorem dispatch_trace {σ : Type} (env : Env σ) (r : Request) (s : σ)
    (tr : List Call) :
    ∃ Δ, (dispatch env r s tr).2.2 = tr ++ Δ ∧
      ∀ c ∈ Δ, ∀ n sz d, c ≠ Call.create_collection n sz d := by
  unfold dispatch
  split
  · obtain ⟨Δ, hΔ, hcls⟩ :=
      add_content_trace env r.collection_name r.content r.metadata s tr
    refine ⟨Δ, hΔ, ?_⟩
    intro c hc n sz d
    rcases hcls c hc with ⟨t, rfl⟩ | ⟨n2, p2, rfl⟩ <;> simp
  · split
    · obtain ⟨Δ, hΔ, hcls⟩ := update_content_trace env r.collection_name
        r.point_id r.content r.metadata s tr
      refine ⟨Δ, hΔ, ?_⟩
      intro c hc n sz d
      rcases hcls c hc with ⟨t, rfl⟩ | ⟨n2, p2, rfl⟩ <;> simp
    · split
      · exact ⟨[.scroll r.collection_name r.limit],
          list_content_trace env r.collection_name r.limit s tr,
          by intro c hc n sz d; simp at hc; subst hc; simp⟩
      · split
        · exact ⟨[.delete r.collection_name [r.point_id.getD ""]],
            delete_content_trace env r.collection_name r.point_id s tr,
            by intro c hc n sz d; simp at hc; subst hc; simp⟩
        · split
          · obtain ⟨Δ, hΔ, hcls⟩ := search_content_trace env r.collection_name
              r.query r.limit r.filter_by r.filter_value s tr
            refine ⟨Δ, hΔ, ?_⟩
            intro c hc n sz d
            rcases hcls c hc with ⟨t, rfl⟩ | ⟨v, rfl⟩ <;> simp
          · exact ⟨[], by simp [M.pure], by intro c hc; simp at hc⟩

/-- Exhaustive description of how `run_op` begins: the existence check comes
first, creation follows exactly when the check answered false, and the
remaining trace is the dispatched handler's. -/
theorem run_op_split {σ : Type} (env : Env σ) (r : Request) (s : σ) :
    (∃ e, env.collection_exists r.collection_name s = .error e ∧
      (run_op env r s []).2.2 = [.collection_exists r.collection_name]) ∨
    (∃ s2, env.collection_exists r.collection_name s = .ok (true, s2) ∧
      (run_op env r s []).2.2 =
        (dispatch env r s2 [.collection_exists r.collection_name]).2.2) ∨
    (∃ s2, env.collection_exists r.collection_name s = .ok (false, s2) ∧
      ((∃ e, env.create_collection r.collection_name 1536 Distance.cosine s2 =
          .error e ∧
        (run_op env r s []).2.2 =
          [.collection_exists r.collection_name,
           .create_collection r.collection_name 1536 Distance.cosine]) ∨
       (∃ s3, env.create_collection r.collection_name 1536 Distance.cosine s2 =
          .ok s3 ∧
        (run_op env r s []).2.2 =
          (dispatch env r s3
            [.collection_exists r.collection_name,
             .create_collection r.collection_name 1536 Distance.cosine]).2.2))) := by
  cases hce : env.collection_exists r.collection_name s with
  | error e =>
    exact Or.inl ⟨e, rfl,
      by simp [run_op, M.bind, M.collectionExists, M.callOp, hce]⟩
  | ok bs =>
    obtain ⟨b, s2⟩ := bs
    cases b with
    | true =>
      refine Or.inr (Or.inl ⟨s2, rfl, ?_⟩)
      simp [run_op, M.bind, M.collectionExists, M.callOp, hce, M.pure]
    | false =>
      cases hcc : env.create_collection r.collection_name 1536
          Distance.cosine s2 with
      | error e =>
        refine Or.inr (Or.inr ⟨s2, rfl, Or.inl ⟨e, hcc, ?_⟩⟩)
        simp [run_op, M.bind, M.collectionExists, M.callOp, M.createCollection,
          hce, hcc, Except.map]
      | ok s3 =>
        refine Or.inr (Or.inr ⟨s2, rfl, Or.inr ⟨s3, hcc, ?_⟩⟩)
        simp [run_op, M.bind, M.collectionExists, M.callOp, M.createCollection,
          hce, hcc, Except.map, M.pure]

/-- `run` reports the same trace as the wrapped operation. -/
theorem run_trace_eq {σ : Type} (env : Env σ) (r : Request) (s : σ) :
    (run env r s).2.2 = (run_op env r s []).2.2 := by
  unfold run
  rcases hr : run_op env r s [] with ⟨res, s2, tr⟩
  cases res <;> simp

/-- Updating a present collection's contents is visible to lookup. -/
theorem storeGet_storeSet (w : Store) (cn : String) (ps qs : List Point)
    (h : storeGet w cn = some ps) :
    storeGet (storeSet w cn qs) cn = some qs := by
  induction w with
  | nil => simp [storeGet] at h
  | cons c w ih =>
    cases hc : (c.1 == cn) with
    | true =>
      unfold storeGet storeSet
      rw [List.map_cons, if_pos hc, List.find?_cons_of_pos _ (by simp)]
      simp
    | false =>
      have h2 : storeGet w cn = some ps := by
        unfold storeGet at h
        rw [List.find?_cons_of_neg _ (by simp [hc])] at h
        exact h
      have hrec := ih h2
      unfold storeGet storeSet at hrec ⊢
      rw [List.map_cons, if_neg (by simp [hc]),
        List.find?_cons_of_neg _ (by simp [hc])]
      exact hrec

/-- A freshly appended collection is found by lookup. -/
theorem storeGet_append_new (w : Store) (cn : String)
    (h : storeGet w cn = none) :
    storeGet (w ++ [(cn, [])]) cn = some [] := by
  induction w with
  | nil =>
    unfold storeGet
    rw [List.nil_append, List.find?_cons_of_pos _ (by simp)]
    rfl
  | cons c w ih =>
    cases hc : (c.1 == cn) with
    | true =>
      unfold storeGet at h
      rw [List.find?_cons] at h
      simp [hc] at h
    | false =>
      have h2 : storeGet w cn = none := by
        unfold storeGet at h
        rw [List.find?_cons_of_neg _ (by simp [hc])] at h
        exact h
      have hrec := ih h2
      unfold storeGet at hrec ⊢
      rw [List.cons_append, List.find?_cons_of_neg _ (by simp [hc])]
      exact hrec

/-- After a modelled upsert of a single point, looking its id up finds
exactly that point. -/
theorem find_upsertModel (pid : String) (v : Vec) (pl : Payload)
    (ps : List Point) :
    (upsertModel [⟨pid, v, pl⟩] ps).find? (fun p => p.id == pid) =
      some ⟨pid, v, pl⟩ := by
  unfold upsertModel
  induction ps with
  | nil =>
    rw [List.filter_nil, List.nil_append,
      List.find?_cons_of_pos _ (by simp)]
  | cons p ps ih =>
    cases hp : (pid != p.id) with
    | true =>
      have hne : pid ≠ p.id := by simpa using hp
      have hpd : (p.id == pid) = false := beq_eq_false_iff_ne.mpr (Ne.symm hne)
      rw [List.filter_cons_of_pos (by simp [hp]), List.cons_append,
        List.find?_cons]
      simp only [hpd]
      exact ih
    | false =>
      rw [List.filter_cons_of_neg (by simp [hp])]
      exact ih

/-! ### Claims -/

/-- Claim C1: for every request, regardless of action and of failures in
validation, the embedding provider or the store client, `execute` returns a
string; any error raised inside the wrapped operation (collection-ensure or
handler) is caught and surfaces as the text `"Error: <message>"`, never as a
propagated exception, and a successful operation surfaces its result string
unchanged. -/
theorem execute_error_boundary {σ : Type} (env : Env σ) (r : Request) (s : σ) :
    (∃ e, validate_action_requirements r = .error e ∧
      execute env r s = ("Error: " ++ e, s, [])) ∨
    (validate_action_requirements r = .ok r ∧
      ((∃ e s2 tr, run_op env r s [] = (.error e, s2, tr) ∧
          execute env r s = ("Error: " ++ e, s2, tr)) ∨
       (∃ res s2 tr, run_op env r s [] = (.ok res, s2, tr) ∧
          execute env r s = (res, s2, tr)))) := by
  cases hv : validate_action_requirements r with
  | error e => exact Or.inl ⟨e, rfl, by simp [execute, hv]⟩
  | ok r2 =>
    have hr2 : r2 = r := validate_ok_eq hv
    subst hr2
    refine Or.inr ⟨rfl, ?_⟩
    rcases hrun : run_op env r2 s [] with ⟨res, s2, tr⟩
    cases res with
    | error e =>
      exact Or.inl ⟨e, s2, tr, rfl, by simp [execute, hv, run, hrun]⟩
    | ok v =>
      exact Or.inr ⟨v, s2, tr, rfl, by simp [execute, hv, run, hrun]⟩

/-- Claim C2: validation fails exactly when the action is add/update with
empty or absent content, update/delete with empty or absent point_id, or
search with empty or absent query; a failing request is rejected with an
error text before any store or embedding-provider call is made, and every
other field combination passes validation. -/
theorem validation_gate {σ : Type} (env : Env σ) (r : Request) (s : σ) :
    ((((r.action = "add" ∨ r.action = "update") ∧ falsy r.content = true) ∨
      ((r.action = "update" ∨ r.action = "delete") ∧ falsy r.point_id = true) ∨
      (r.action = "search" ∧ falsy r.query = true)) ↔
      (∃ e, validate_action_requirements r = .error e)) ∧
    ((∃ e, validate_action_requirements r = .error e) →
      (execute env r s).2.2 = [] ∧ ∃ e, (execute env r s).1 = "Error: " ++ e) := by
  constructor
  · unfold validate_action_requirements
    split
    · next hc =>
      have h1 : (r.action = "add" ∨ r.action = "update") ∧
          falsy r.content = true := by
        simpa [Bool.and_eq_true, Bool.or_eq_true, beq_iff_eq] using hc
      exact ⟨fun _ => ⟨_, rfl⟩, fun _ => Or.inl h1⟩
    · next hc1 =>
      split
      · next hc2 =>
        have h2 : (r.action = "update" ∨ r.action = "delete") ∧
            falsy r.point_id = true := by
          simpa [Bool.and_eq_true, Bool.or_eq_true, beq_iff_eq] using hc2
        exact ⟨fun _ => ⟨_, rfl⟩, fun _ => Or.inr (Or.inl h2)⟩
      · next hc2 =>
        split
        · next hc3 =>
          have h3 : r.action = "search" ∧ falsy r.query = true := by
            simpa [Bool.and_eq_true, beq_iff_eq] using hc3
          exact ⟨fun _ => ⟨_, rfl⟩, fun _ => Or.inr (Or.inr h3)⟩
        · next hc3 =>
          constructor
          · intro hl
            exfalso
            rcases hl with h | h | h
            · exact hc1 (by
                simp only [Bool.and_eq_true, Bool.or_eq_true, beq_iff_eq]
                exact h)
            · exact hc2 (by
                simp only [Bool.and_eq_true, Bool.or_eq_true, beq_iff_eq]
                exact h)
            · exact hc3 (by
                simp only [Bool.and_eq_true, beq_iff_eq]
                exact h)
          · rintro ⟨e, he⟩
            exact Except.noConfusion he
  · rintro ⟨e, he⟩
    exact ⟨by simp [execute, he], e, by simp [execute, he]⟩

/-- Witness for C2: an add request without content is rejected before any
external call, with an error text. -/
theorem validation_gate_witness :
    (execute okEnv reqAddNoContent ()).2.2 = [] ∧
    ∃ e, (execute okEnv reqAddNoContent ()).1 = "Error: " ++ e :=
  (validation_gate okEnv reqAddNoContent ()).2
    ((validation_gate okEnv reqAddNoContent ()).1.mp
      (Or.inl ⟨Or.inl rfl, rfl⟩))

/-- Claim C3: for every request that reaches the operation, before routing by
action (whether the action is recognized or not), `execute` first checks
whether the named collection exists; if it does not, the very next call
creates it with vector size 1536 and the cosine distance metric; if it does
exist, no creation call is ever made. -/
theorem ensure_collection {σ : Type} (env : Env σ) (r : Request) (s : σ)
    (hv : validate_action_requirements r = .ok r) :
    (execute env r s).2.2.head? =
      some (.collection_exists r.collection_name) ∧
    (∀ s2, env.collection_exists r.collection_name s = .ok (false, s2) →
      (execute env r s).2.2.take 2 =
        [.collection_exists r.collection_name,
         .create_collection r.collection_name 1536 Distance.cosine]) ∧
    (∀ s2, env.collection_exists r.collection_name s = .ok (true, s2) →
      ∀ c ∈ (execute env r s).2.2, ∀ n sz d,
        c ≠ Call.create_collection n sz d) := by
  have hex : (execute env r s).2.2 = (run_op env r s []).2.2 := by
    rw [show execute env r s = run env r s from by simp [execute, hv],
      run_trace_eq]
  rw [hex]
  rcases run_op_split env r s with ⟨e, hce, htrace⟩ | ⟨s2, hce, htrace⟩ |
    ⟨s2, hce, ⟨e, hcc, htrace⟩ | ⟨s3, hcc, htrace⟩⟩
  · rw [htrace]
    refine ⟨rfl, ?_, ?_⟩
    · intro s2 h
      rw [hce] at h
      exact Except.noConfusion h
    · intro s2 h
      rw [hce] at h
      exact Except.noConfusion h
  · obtain ⟨Δ, hΔ, hcls⟩ :=
      dispatch_trace env r s2 [.collection_exists r.collection_name]
    rw [htrace, hΔ]
    refine ⟨rfl, ?_, ?_⟩
    · intro s2' h
      rw [hce] at h
      exact absurd (Prod.mk.injEq .. ▸ Except.ok.inj h) (by simp)
    · intro s2' h c hc n sz d
      rcases List.mem_append.mp hc with h1 | h2
      · simp only [List.mem_singleton] at h1
        subst h1
        simp
      · exact hcls c h2 n sz d
  · rw [htrace]
    refine ⟨rfl, ?_, ?_⟩
    · intro s2' h
      rfl
    · intro s2' h
      rw [hce] at h
      exact absurd (Except.ok.inj h) (by simp)
  · obtain ⟨Δ, hΔ, hcls⟩ := dispatch_trace env r s3
      [.collection_exists r.collection_name,
       .create_collection r.collection_name 1536 Distance.cosine]
    rw [htrace, hΔ]
    refine ⟨rfl, ?_, ?_⟩
    · intro s2' h
      rfl
    · intro s2' h
      rw [hce] at h
      exact absurd (Except.ok.inj h) (by simp)

/-- Witness for C3: on a fresh collection, the first two calls are the
existence check and the creation with size 1536 and cosine distance. -/
theorem ensure_collection_witness :
    (execute okEnvAbsent reqList ()).2.2.take 2 =
      [Call.collection_exists "docs",
       Call.create_collection "docs" 1536 Distance.cosine] :=
  (ensure_collection okEnvAbsent reqList () rfl).2.1 () rfl

/-- The built filter is present exactly when both pair fields are truthy. -/
theorem build_filter_some (fb fv : Option String) :
    (∃ g, build_filter fb fv = some g) ↔
      (truthy fb = true ∧ truthy fv = true) := by
  unfold build_filter
  cases h1 : truthy fb <;> cases h2 : truthy fv <;> simp

/-- Validation does not read the filter pair. -/
theorem validate_noFilters (r : Request) :
    validate_action_requirements (noFilters r) =
      (validate_action_requirements r).map noFilters := by
  cases h1 : ((r.action == "add" || r.action == "update") && falsy r.content)
  · cases h2 : ((r.action == "update" || r.action == "delete") &&
        falsy r.point_id)
    · cases h3 : (r.action == "search" && falsy r.query)
      · simp [validate_action_requirements, noFilters, h1, h2, h3, Except.map]
      · simp [validate_action_requirements, noFilters, h1, h2, h3, Except.map]
    · simp [validate_action_requirements, noFilters, h1, h2, Except.map]
  · simp [validate_action_requirements, noFilters, h1, Except.map]

/-- For a search request the dispatched handler is the search handler. -/
theorem dispatch_search {σ : Type} (env : Env σ) (r : Request)
    (ha : r.action = "search") :
    dispatch env r = search_content env r.collection_name r.query r.limit
      r.filter_by r.filter_value := by
  unfold dispatch
  rw [ha]
  rfl

/-- Any search call issued while executing a search request carries exactly
the all-or-nothing built filter. -/
theorem execute_search_filter {σ : Type} (env : Env σ) (r : Request) (s : σ)
    (ha : r.action = "search") :
    ∀ c ∈ (execute env r s).2.2, ∀ cn v l f, c = Call.search cn v l f →
      f = build_filter r.filter_by r.filter_value := by
  intro c hc cn v l f hcf
  subst hcf
  cases hv : validate_action_requirements r with
  | error e =>
    have htr : (execute env r s).2.2 = [] := by simp [execute, hv]
    rw [htr] at hc
    cases hc
  | ok r2 =>
    have hr2 := validate_ok_eq hv
    subst hr2
    have htr : (execute env r2 s).2.2 = (run_op env r2 s []).2.2 := by
      rw [show execute env r2 s = run env r2 s from by simp [execute, hv],
        run_trace_eq]
    rw [htr] at hc
    rcases run_op_split env r2 s with ⟨e, hce, htrace⟩ | ⟨s2, hce, htrace⟩ |
      ⟨s2, hce, ⟨e, hcc, htrace⟩ | ⟨s3, hcc, htrace⟩⟩
    · rw [htrace] at hc
      simp at hc
    · rw [htrace] at hc
      rw [dispatch_search env r2 ha] at hc
      obtain ⟨Δ, hΔ, hcls⟩ := search_content_trace env r2.collection_name
        r2.query r2.limit r2.filter_by r2.filter_value s2
        [.collection_exists r2.collection_name]
      rw [hΔ] at hc
      rcases List.mem_append.mp hc with h1 | h2
      · simp at h1
      · rcases hcls _ h2 with ⟨t, ht⟩ | ⟨v2, hv2⟩
        · exact absurd ht (by simp)
        · simp only [Call.search.injEq] at hv2
          exact hv2.2.2.2
    · rw [htrace] at hc
      simp at hc
    · rw [htrace] at hc
      rw [dispatch_search env r2 ha] at hc
      obtain ⟨Δ, hΔ, hcls⟩ := search_content_trace env r2.collection_name
        r2.query r2.limit r2.filter_by r2.filter_value s3
        [.collection_exists r2.collection_name,
         .create_collection r2.collection_name 1536 Distance.cosine]
      rw [hΔ] at hc
      rcases List.mem_append.mp hc with h1 | h2
      · simp at h1
      · rcases hcls _ h2 with ⟨t, ht⟩ | ⟨v2, hv2⟩
        · exact absurd ht (by simp)
        · simp only [Call.search.injEq] at hv2
          exact hv2.2.2.2

/-- Claim C4: for every search request, an equality filter accompanies the
store search call exactly when both filter_by and filter_value are supplied
non-empty; when at most one of the pair is supplied, the whole execution is
identical to the execution with neither supplied — an unfiltered similarity
search with no additional error. -/
theorem search_filter_all_or_nothing {σ : Type} (env : Env σ) (r : Request)
    (s : σ) (ha : r.action = "search") :
    (∀ c ∈ (execute env r s).2.2, ∀ cn v l f, c = Call.search cn v l f →
      ((∃ g, f = some g) ↔
        (truthy r.filter_by = true ∧ truthy r.filter_value = true))) ∧
    (¬(truthy r.filter_by = true ∧ truthy r.filter_value = true) →
      execute env r s = execute env (noFilters r) s) := by
  constructor
  · intro c hc cn v l f hcf
    rw [execute_search_filter env r s ha c hc cn v l f hcf]
    exact build_filter_some r.filter_by r.filter_value
  · intro hnot
    have hnf : (truthy r.filter_by && truthy r.filter_value) = false := by
      cases h1 : truthy r.filter_by <;> cases h2 : truthy r.filter_value <;>
        simp_all
    have hbf : build_filter r.filter_by r.filter_value =
        build_filter none none := by
      rw [show build_filter none none = none from rfl]
      simp [build_filter, hnf]
    have hdisp : dispatch env (noFilters r) = dispatch env r := by
      rw [dispatch_search env (noFilters r) ha, dispatch_search env r ha]
      show search_content env r.collection_name r.query r.limit none none = _
      unfold search_content
      rw [hbf]
    have hrunop : run_op env (noFilters r) = run_op env r := by
      unfold run_op
      rw [hdisp]
      rfl
    cases hv : validate_action_requirements r with
    | error e =>
      have hv2 : validate_action_requirements (noFilters r) = .error e := by
        rw [validate_noFilters, hv]
        rfl
      simp [execute, hv, hv2]
    | ok r2 =>
      have hr2 := validate_ok_eq hv
      subst hr2
      have hv2 : validate_action_requirements (noFilters r2) =
          .ok (noFilters r2) := by
        rw [validate_noFilters, hv]
        rfl
      have hout : execute env r2 s = run env r2 s := by simp [execute, hv]
      have hout2 : execute env (noFilters r2) s = run env (noFilters r2) s := by
        simp [execute, hv2]
      rw [hout, hout2]
      unfold run
      rw [hrunop]

/-- Witness for C4: a search request supplying only `filter_by` executes
exactly as the same request with both filter fields absent. -/
theorem search_filter_all_or_nothing_witness :
    execute okEnv reqSearchHalfFilter () =
      execute okEnv (noFilters reqSearchHalfFilter) () :=
  (search_filter_all_or_nothing okEnv reqSearchHalfFilter () rfl).2
    (by decide)

/-- Claim C10: for every search request supplying both filter fields
non-empty, the equality filter sent to the store targets the payload field
named `"metadata."` followed by filter_by, with the supplied value. -/
theorem search_filter_metadata_key {σ : Type} (env : Env σ) (r : Request)
    (s : σ) (ha : r.action = "search") (x y : String)
    (hfb : r.filter_by = some x) (hfv : r.filter_value = some y)
    (hx : x ≠ "") (hy : y ≠ "") :
    ∀ c ∈ (execute env r s).2.2, ∀ cn v l f, c = Call.search cn v l f →
      f = some ⟨"metadata." ++ x, y⟩ := by
  intro c hc cn v l f hcf
  rw [execute_search_filter env r s ha c hc cn v l f hcf]
  have hxv : (x == "") = false := by
    cases hb : (x == "") with
    | false => rfl
    | true => exact absurd (by simpa using hb) hx
  have hyv : (y == "") = false := by
    cases hb : (y == "") with
    | false => rfl
    | true => exact absurd (by simpa using hb) hy
  simp [build_filter, hfb, hfv, truthy, falsy, hxv, hyv]

/-- Witness for C10: with filter_by "tag" and filter_value "x", the filter
key sent to the store is "metadata.tag". -/
theorem search_filter_metadata_key_witness :
    (Call.search "docs" [7] 5 (some ⟨"metadata.tag", "x"⟩)) ∈
      (execute okEnv reqSearchBoth ()).2.2 ∧
    ∀ c ∈ (execute okEnv reqSearchBoth ()).2.2, ∀ cn v l f,
      c = Call.search cn v l f → f = some ⟨"metadata.tag", "x"⟩ := by
  constructor
  · decide
  · exact search_filter_metadata_key okEnv reqSearchBoth () rfl "tag" "x"
      rfl rfl (by decide) (by decide)

/-- Claim C5: for every update request with point_id X and content C, the
handler upserts a single point with id exactly X, the embedding of C as its
vector, and exactly the payload of C with the supplied metadata (or an empty
mapping) — and on success returns a confirmation containing X.  Against the
modelled store, the upsert fully replaces any previous payload/vector of X,
and silently creates the point when X was absent. -/
theorem update_upserts_exact {σ : Type} (env : Env σ) (s : σ) (tr : List Call)
    (cn pid ct : String) (md : Option Metadata) (v : Vec)
    (hemb : env.embed_fn (some ct) = .ok v) :
    ((update_content env cn (some pid) (some ct) md s tr).2.2 =
      tr ++ [.embed (some ct),
             .upsert cn [⟨pid, v, ⟨some ct, md.getD []⟩⟩]]) ∧
    (∀ s2, env.upsert cn [⟨pid, v, ⟨some ct, md.getD []⟩⟩] s = .ok s2 →
      update_content env cn (some pid) (some ct) md s tr =
        (.ok ("Content updated successfully for ID: " ++ pid), s2,
         tr ++ [.embed (some ct),
                .upsert cn [⟨pid, v, ⟨some ct, md.getD []⟩⟩]]) ∧
      ∃ a b, "Content updated successfully for ID: " ++ pid =
        a ++ pid ++ b) ∧
    (∀ (emb : Option String → Except Err Vec) (u : String) (w : Store)
        (ps : List Point) (v2 : Vec), emb (some ct) = .ok v2 →
      storeGet w cn = some ps →
      ∃ w2, update_content (qdrantEnv emb u) cn (some pid) (some ct) md w tr =
          (.ok ("Content updated successfully for ID: " ++ pid), w2,
           tr ++ [.embed (some ct),
                  .upsert cn [⟨pid, v2, ⟨some ct, md.getD []⟩⟩]]) ∧
        storeGetPoint w2 cn pid = some ⟨pid, v2, ⟨some ct, md.getD []⟩⟩) := by
  refine ⟨?_, ?_, ?_⟩
  · cases hup : env.upsert cn [⟨pid, v, ⟨some ct, md.getD []⟩⟩] s <;>
      simp [update_content, get_embedding, M.bind, M.callOp, M.upsertPoints,
        M.pure, hemb, hup, Except.map]
  · intro s2 hup
    refine ⟨?_, ⟨"Content updated successfully for ID: ", "", by simp⟩⟩
    simp [update_content, get_embedding, M.bind, M.callOp, M.upsertPoints,
      M.pure, hemb, hup, Except.map]
  · intro emb u w ps v2 hemb2 hw
    have hembq : (qdrantEnv emb u).embed_fn (some ct) = .ok v2 := by
      simpa [qdrantEnv] using hemb2
    have hup : (qdrantEnv emb u).upsert cn
        [⟨pid, v2, ⟨some ct, md.getD []⟩⟩] w =
        .ok (storeSet w cn
          (upsertModel [⟨pid, v2, ⟨some ct, md.getD []⟩⟩] ps)) := by
      simp [qdrantEnv, hw]
    refine ⟨storeSet w cn (upsertModel [⟨pid, v2, ⟨some ct, md.getD []⟩⟩] ps),
      ?_, ?_⟩
    · simp [update_content, get_embedding, M.bind, M.callOp, M.upsertPoints,
        M.pure, hembq, hup, Except.map]
    · unfold storeGetPoint
      rw [storeGet_storeSet w cn ps _ hw]
      exact find_upsertModel pid v2 ⟨some ct, md.getD []⟩ ps

/-- Witness for C5: updating point "p1" in a store where "docs" exists leaves
exactly the new point under "p1". -/
theorem update_upserts_exact_witness :
    ∃ w2, update_content (qdrantEnv embOk "u") "docs" (some "p1")
        (some "new content") none [("docs", [])] [] =
        (.ok ("Content updated successfully for ID: " ++ "p1"), w2,
         [] ++ [.embed (some "new content"),
                .upsert "docs"
                  [⟨"p1", [1], ⟨some "new content", Option.getD none []⟩⟩]]) ∧
      storeGetPoint w2 "docs" "p1" =
        some ⟨"p1", [1], ⟨some "new content", Option.getD none []⟩⟩ :=
  (update_upserts_exact (qdrantEnv embOk "u") [("docs", [])] [] "docs" "p1"
    "new content" none [1] rfl).2.2 embOk "u" [("docs", [])] [] [1] rfl rfl

/-- Claim C6: for every add request, the handler uses the freshly generated
identifier (`uuid.uuid4()`, modelled as `env.uuid4`) as the point id, embeds
the supplied content, and issues exactly one upsert of a single point with
that id, that vector, and the payload of content plus metadata (or an empty
mapping) — no read or collision check against existing ids occurs, and the
confirmation string contains the generated id. -/
theorem add_generates_id {σ : Type} (env : Env σ) (s : σ) (tr : List Call)
    (cn ct : String) (md : Option Metadata) (v : Vec)
    (hemb : env.embed_fn (some ct) = .ok v) :
    ((add_content env cn (some ct) md s tr).2.2 =
      tr ++ [.embed (some ct),
             .upsert cn [⟨env.uuid4, v, ⟨some ct, md.getD []⟩⟩]]) ∧
    (∀ s2, env.upsert cn [⟨env.uuid4, v, ⟨some ct, md.getD []⟩⟩] s = .ok s2 →
      add_content env cn (some ct) md s tr =
        (.ok ("Content added successfully with ID: " ++ env.uuid4), s2,
         tr ++ [.embed (some ct),
                .upsert cn [⟨env.uuid4, v, ⟨some ct, md.getD []⟩⟩]]) ∧
      ∃ a b, "Content added successfully with ID: " ++ env.uuid4 =
        a ++ env.uuid4 ++ b) := by
  constructor
  · cases hup : env.upsert cn [⟨env.uuid4, v, ⟨some ct, md.getD []⟩⟩] s <;>
      simp [add_content, get_embedding, M.bind, M.callOp, M.upsertPoints,
        M.pure, hemb, hup, Except.map]
  · intro s2 hup
    refine ⟨?_, ⟨"Content added successfully with ID: ", "", by simp⟩⟩
    simp [add_content, get_embedding, M.bind, M.callOp, M.upsertPoints,
      M.pure, hemb, hup, Except.map]

/-- Witness for C6: a concrete add issues exactly the embed and upsert calls
with the generated id, and reports it. -/
theorem add_generates_id_witness :
    add_content okEnv "docs" (some "hello") (some [("tag", "x")]) () [] =
      (.ok ("Content added successfully with ID: " ++ okEnv.uuid4), (),
       [] ++ [.embed (some "hello"),
              .upsert "docs" [⟨okEnv.uuid4, [7],
                ⟨some "hello", Option.getD (some [("tag", "x")]) []⟩⟩]]) ∧
    ∃ a b, "Content added successfully with ID: " ++ okEnv.uuid4 =
      a ++ okEnv.uuid4 ++ b :=
  (add_generates_id okEnv () [] "docs" "hello" (some [("tag", "x")]) [7]
    rfl).2 () rfl

/-- Claim C7: for every list request, a store answer of zero points yields
exactly "No content found in collection."; otherwise the result is exactly
the per-point report, in store order: the id line, the content line (with
placeholder "N/A" when the payload has no content), the metadata line, and a
"---" separator line after each entry, joined by newlines. -/
theorem list_reports {σ : Type} (env : Env σ) (s : σ) (tr : List Call)
    (cn : String) (lim : Int) (pts : List Point) (s2 : σ)
    (hscroll : env.scroll cn lim s = .ok (pts, s2)) :
    (pts = [] →
      (list_content env cn lim s tr).1 =
        .ok "No content found in collection.") ∧
    (pts ≠ [] →
      (list_content env cn lim s tr).1 =
        .ok (String.intercalate "\n" (pts.flatMap (fun p =>
          ["ID: " ++ p.id,
           "Content: " ++ p.payload.content.getD "N/A",
           "Metadata: " ++ reprMetadata p.payload.metadata,
           "---"])))) := by
  constructor
  · intro hempty
    subst hempty
    simp [list_content, M.bind, M.scrollPoints, M.callOp, M.pure, hscroll]
  · intro hne
    have hp : pts.isEmpty = false := by
      cases pts with
      | nil => exact absurd rfl hne
      | cons p l => rfl
    simp [list_content, M.bind, M.scrollPoints, M.callOp, M.pure, hscroll, hp]

/-- Witness for C7: one stored point is reported with its id, content,
metadata and the separator; an empty scroll gives the fixed message. -/
theorem list_reports_witness :
    (list_content okEnv "docs" 10 () []).1 =
      .ok "No content found in collection." ∧
    (list_content okEnvWithPoint "docs" 10 () []).1 =
      .ok ("ID: p1\nContent: hello\nMetadata: \x7btag: x\x7d\n---") := by
  constructor
  · exact (list_reports okEnv () [] "docs" 10 [] () rfl).1 rfl
  · have h := (list_reports okEnvWithPoint () [] "docs" 10
      [⟨"p1", [1], ⟨some "hello", [("tag", "x")]⟩⟩] () rfl).2 (by simp)
    exact h.trans (by rfl)

/-- Claim C8: for every request whose action is none of add, update, list,
delete, search (and whose collection-ensure step succeeds), `execute` returns
— without raising — a text that names the unrecognized action and enumerates
the five valid actions. -/
theorem unknown_action_message {σ : Type} (env : Env σ) (r : Request) (s : σ)
    (b : Bool) (s2 s3 : σ)
    (ha : r.action ∉
      (["add", "update", "list", "delete", "search"] : List String))
    (hce : env.collection_exists r.collection_name s = .ok (b, s2))
    (hcc : b = false →
      env.create_collection r.collection_name 1536 Distance.cosine s2 =
        .ok s3) :
    (execute env r s).1 = "Unknown action \x27" ++ r.action ++
      "\x27. Valid actions are: add, update, list, delete, search." ∧
    ∃ a b2, (execute env r s).1 = a ++ r.action ++ b2 := by
  have h1 : r.action ≠ "add" := fun h => ha (by simp [h])
  have h2 : r.action ≠ "update" := fun h => ha (by simp [h])
  have h3 : r.action ≠ "list" := fun h => ha (by simp [h])
  have h4 : r.action ≠ "delete" := fun h => ha (by simp [h])
  have h5 : r.action ≠ "search" := fun h => ha (by simp [h])
  have e1 : (r.action == "add") = false := beq_eq_false_iff_ne.mpr h1
  have e2 : (r.action == "update") = false := beq_eq_false_iff_ne.mpr h2
  have e3 : (r.action == "list") = false := beq_eq_false_iff_ne.mpr h3
  have e4 : (r.action == "delete") = false := beq_eq_false_iff_ne.mpr h4
  have e5 : (r.action == "search") = false := beq_eq_false_iff_ne.mpr h5
  have hv : validate_action_requirements r = .ok r := by
    simp [validate_action_requirements, e1, e2, e4, e5]
  have hd : dispatch env r = M.pure ("Unknown action \x27" ++ r.action ++
      "\x27. Valid actions are: add, update, list, delete, search.") := by
    simp [dispatch, e1, e2, e3, e4, e5]
  have hmain : (execute env r s).1 = "Unknown action \x27" ++ r.action ++
      "\x27. Valid actions are: add, update, list, delete, search." := by
    rw [show execute env r s = run env r s from by simp [execute, hv]]
    cases b with
    | true =>
      simp [run, run_op, M.bind, M.collectionExists, M.callOp, hce, M.pure, hd]
    | false =>
      have hc3 := hcc rfl
      simp [run, run_op, M.bind, M.collectionExists, M.callOp,
        M.createCollection, hce, hc3, Except.map, M.pure, hd]
  exact ⟨hmain, "Unknown action \x27",
    "\x27. Valid actions are: add, update, list, delete, search.", hmain⟩

/-- Witness for C8: the action "frobnicate" yields the unknown-action text. -/
theorem unknown_action_message_witness :
    (execute okEnv reqFrobnicate ()).1 = "Unknown action \x27" ++
      reqFrobnicate.action ++
      "\x27. Valid actions are: add, update, list, delete, search." :=
  (unknown_action_message okEnv reqFrobnicate () true () () (by decide) rfl
    (fun h => nomatch h)).1

/-- Executing a delete on the modelled store succeeds regardless of whether
the collection or the point id exists, and leaves the collection present. -/
theorem delete_exec (emb : Option String → Except Err Vec) (u : String)
    (cn pid : String) (w : Store) (hpid : pid ≠ "") :
    ∃ w2 tr ps2, execute (qdrantEnv emb u) (deleteReq cn pid) w =
      ("Content deleted successfully for ID: " ++ pid, w2, tr) ∧
      storeGet w2 cn = some ps2 := by
  have hpb : (pid == "") = false := beq_eq_false_iff_ne.mpr hpid
  have hv : validate_action_requirements (deleteReq cn pid) =
      .ok (deleteReq cn pid) := by
    simp [validate_action_requirements, deleteReq, falsy, hpb]
  have hd : dispatch (qdrantEnv emb u)
      ⟨"delete", cn, none, none, some pid, none, none, none, 10⟩ =
      delete_content (qdrantEnv emb u) cn (some pid) := by
    rfl
  rw [show execute (qdrantEnv emb u) (deleteReq cn pid) w =
    run (qdrantEnv emb u) (deleteReq cn pid) w from by simp [execute, hv]]
  cases hs : storeGet w cn with
  | some ps =>
    have hce : (qdrantEnv emb u).collection_exists cn w = .ok (true, w) := by
      simp [qdrantEnv, hs]
    have hdel : (qdrantEnv emb u).delete cn [pid] w =
        .ok (storeSet w cn (ps.filter (fun p => !([pid].contains p.id)))) := by
      simp [qdrantEnv, hs]
    refine ⟨storeSet w cn (ps.filter (fun p => !([pid].contains p.id))),
      [.collection_exists cn, .delete cn [pid]],
      ps.filter (fun p => !([pid].contains p.id)),
      ?_, storeGet_storeSet w cn ps _ hs⟩
    simp [run, run_op, delete_content, M.bind, M.collectionExists,
      M.callOp, M.deletePoints, M.pure, deleteReq, hce, hd, hdel, Except.map]
  | none =>
    have hce : (qdrantEnv emb u).collection_exists cn w = .ok (false, w) := by
      simp [qdrantEnv, hs]
    have hcc : (qdrantEnv emb u).create_collection cn 1536 Distance.cosine w =
        .ok (w ++ [(cn, [])]) := by
      simp [qdrantEnv]
    have hget : storeGet (w ++ [(cn, [])]) cn = some [] :=
      storeGet_append_new w cn hs
    have hdel : (qdrantEnv emb u).delete cn [pid] (w ++ [(cn, [])]) =
        .ok (storeSet (w ++ [(cn, [])]) cn
          (([] : List Point).filter (fun p => !([pid].contains p.id)))) := by
      simp [qdrantEnv, hget]
    refine ⟨storeSet (w ++ [(cn, [])]) cn
        (([] : List Point).filter (fun p => !([pid].contains p.id))),
      [.collection_exists cn,
       .create_collection cn 1536 Distance.cosine, .delete cn [pid]],
      ([] : List Point).filter (fun p => !([pid].contains p.id)),
      ?_, storeGet_storeSet (w ++ [(cn, [])]) cn [] _ hget⟩
    simp [run, run_op, delete_content, M.bind, M.collectionExists,
      M.callOp, M.createCollection, M.deletePoints, M.pure, deleteReq,
      hce, hcc, hd, hdel, Except.map]

/-- Claim C9: delete is idempotent at the tool boundary against the modelled
store: deleting the same point id twice in succession reports success with
that id both times, and deleting an id absent from the collection (any `w`,
including stores without the collection or the point) produces no error
result. -/
theorem delete_idempotent_tool (emb : Option String → Except Err Vec)
    (u : String) (cn pid : String) (w : Store) (hpid : pid ≠ "") :
    (execute (qdrantEnv emb u) (deleteReq cn pid) w).1 =
      "Content deleted successfully for ID: " ++ pid ∧
    (execute (qdrantEnv emb u) (deleteReq cn pid)
      (execute (qdrantEnv emb u) (deleteReq cn pid) w).2.1).1 =
      "Content deleted successfully for ID: " ++ pid ∧
    ∃ a b, "Content deleted successfully for ID: " ++ pid = a ++ pid ++ b := by
  obtain ⟨w2, tr, ps2, hex, hw2⟩ := delete_exec emb u cn pid w hpid
  obtain ⟨w3, tr3, ps3, hex3, hw3⟩ := delete_exec emb u cn pid w2 hpid
  refine ⟨by rw [hex], ?_,
    ⟨"Content deleted successfully for ID: ", "", by simp⟩⟩
  rw [hex]
  show (execute (qdrantEnv emb u) (deleteReq cn pid) w2).1 = _
  rw [hex3]

/-- Witness for C9: deleting "p1" twice from an empty store (where neither
the collection nor the point exists) reports success. -/
theorem delete_idempotent_tool_witness :
    (execute (qdrantEnv embOk "u") (deleteReq "docs" "p1") []).1 =
      "Content deleted successfully for ID: " ++ "p1" ∧
    (execute (qdrantEnv embOk "u") (deleteReq "docs" "p1")
      (execute (qdrantEnv embOk "u") (deleteReq "docs" "p1") []).2.1).1 =
      "Content deleted successfully for ID: " ++ "p1" :=
  ⟨(delete_idempotent_tool embOk "u" "docs" "p1" [] (by decide)).1,
   (delete_idempotent_tool embOk "u" "docs" "p1" [] (by decide)).2.1⟩

end CrewaiQdrant
